import Mathlib

/-!
Shallow embedding of the swingmusic artist-aggregation cache, album
classifier and album/track lookup routines, together with proofs checking
the specification's claims against them.

Source files embedded:
- src/app/api/artist.py      (ArtistsCache, get_artist, get_artist_albums)
- src/server/app/lib/albumslib.py  (find_album, GetAlbumTracks)

Conventions: Python lists become Lean lists; the capacity-1 deque becomes a
list with the deque append semantics made explicit; a Python statement that
can raise becomes a function into Except; Python negative indexing is made
explicit in py_index.
-/

/-- A track as used by the embedded routines: its owning album identity,
a title and a duration.  Mirrors the fields of app.models.Track /
the track dictionaries of albumslib.py that the embedded code reads. -/
structure Track where
  albumhash : String
  title : String
  duration : Nat
deriving DecidableEq

/-- An album as used by the embedded routines.  The model class itself is
external to the embedded files; per the spec (section 3) it carries an
identity, the set of primary album-artist identities, and the three
classification flags.  The set of primary-artist identities is modelled as
a list of identity strings with exact membership. -/
structure Album where
  albumhash : String
  albumartists_hashes : List String
  is_single : Bool
  is_EP : Bool
  is_compilation : Bool
deriving DecidableEq

/-- CacheEntry from src/app/api/artist.py lines 19-37. -/
structure CacheEntry where
  artisthash : String
  albumhashes : List String
  tracks : List Track
  albums : List Album
  type_checked : Bool
  albums_fetched : Bool
deriving DecidableEq

/-- CacheEntry.__init__ (artist.py lines 24-37): albums start empty, tracks
are set to the given list when it is non-empty (and stay empty otherwise,
which coincides with the given list), both stage flags start false. -/
def CacheEntry.init (artisthash : String) (albumhashes : List String)
    (tracks : List Track) : CacheEntry :=
  { artisthash := artisthash
    albumhashes := albumhashes
    tracks := if tracks.length > 0 then tracks else []
    albums := []
    type_checked := false
    albums_fetched := false }

/-- Python substring containment (the expression needle in haystack for
strings), over the character lists of the two strings. -/
def strContains (haystack needle : String) : Bool :=
  (List.range (haystack.data.length + 1)).any
    (fun i => ((haystack.data.drop i).take needle.data.length) == needle.data)

/-- Modelled from the spec: helpers.create_album_hash is not under src/.
Section 4.1 of the spec specifies only a pure deterministic digest over
(title, artist), treated as opaque; we model it as a concrete injective-ish
pairing so that it is computable. -/
def create_album_hash (albumtitle artist : String) : String :=
  albumtitle ++ "-" ++ artist

/-- Python sequence indexing with an Int index: nonnegative indices index
from the front, negative indices index from the back (index -1 is the last
element); an out-of-range index raises IndexError, modelled as none. -/
def py_index {α : Type} (l : List α) (i : Int) : Option α :=
  if i < 0 then
    if (l.length : Int) + i < 0 then none
    else l.get? ((l.length : Int) + i).toNat
  else l.get? i.toNat

/-- Appending to a collections.deque with the given maxlen: the new element
goes at the right end and elements beyond maxlen are discarded from the
left. -/
def deque_append {α : Type} (maxlen : Nat) (q : List α) (x : α) : List α :=
  let q2 := q ++ [x]
  q2.drop (q2.length - maxlen)

/-- ArtistsCache.add_entry (artist.py lines 89-94): append a fresh
CacheEntry to the maxlen-1 deque ArtistsCache.artists. -/
def add_entry (cache : List CacheEntry) (artisthash : String)
    (albumhashes : List String) (tracks : List Track) : List CacheEntry :=
  deque_append 1 cache (CacheEntry.init artisthash albumhashes tracks)

/-- A sequence of ArtistsCache.add_entry calls, one triple of arguments per
call, applied in order to an initial cache state. -/
def run_add_entries (cache : List CacheEntry)
    (calls : List (String × List String × List Track)) : List CacheEntry :=
  calls.foldl (fun c t => add_entry c t.1 t.2.1 t.2.2) cache

/-- The enumerate loop of ArtistsCache.get_albums_by_artisthash
(artist.py lines 47-56), carrying the running index. -/
def get_albums_by_artisthash_go (artisthash : String)
    (cache : List CacheEntry) (index : Int) : List Album × Int :=
  match cache with
  | [] => ([], -1)
  | e :: rest =>
    if e.artisthash == artisthash then (e.albums, index)
    else get_albums_by_artisthash_go artisthash rest (index + 1)

/-- ArtistsCache.get_albums_by_artisthash (artist.py lines 47-56): returns
the first matching entry's albums with its index, or ([], -1). -/
def get_albums_by_artisthash (cache : List CacheEntry) (artisthash : String) :
    List Album × Int :=
  get_albums_by_artisthash_go artisthash cache 0

/-- ArtistsCache.get_tracks (artist.py lines 96-102): filters the deque for
the artisthash and takes element [0] of the result, which raises IndexError
when no entry matches. -/
def get_tracks (cache : List CacheEntry) (artisthash : String) :
    Except String (List Track) :=
  match cache.filter (fun a => a.artisthash == artisthash) with
  | [] => Except.error "IndexError: list index out of range"
  | e :: _ => Except.ok e.tracks

/-- The body of ArtistsCache.get_albums (artist.py lines 104-122) acting on
the matched entry: resolve each known album identity through the album
store, drop unresolved ones, then append each store album whose identity is
not a substring of the dash-joined concatenation of the resolved
identities (the Python expression album.albumhash not in all_albums_hash),
and mark albums_fetched.  album_by_hash embeds AlbumStore.get_album_by_hash
and store_albums the result of AlbumStore.get_albums_by_artisthash. -/
def get_albums_entry (album_by_hash : String → Option Album)
    (store_albums : List Album) (entry : CacheEntry) : CacheEntry :=
  let resolved := (entry.albumhashes.map album_by_hash).filterMap (fun x => x)
  let all_albums_hash := String.intercalate "-" (resolved.map (fun a => a.albumhash))
  let merged := store_albums.foldl
    (fun acc album =>
      if strContains all_albums_hash album.albumhash then acc else acc ++ [album])
    resolved
  { entry with albums := merged, albums_fetched := true }

/-- ArtistsCache.get_albums (artist.py lines 104-122): the entry lookup by
list-comprehension-and-[0] (IndexError when no entry matches) followed by
the merge in get_albums_entry. -/
def get_albums (album_by_hash : String → Option Album)
    (store_albums : List Album) (cache : List CacheEntry) (artisthash : String) :
    Except String CacheEntry :=
  match cache.filter (fun a => a.artisthash == artisthash) with
  | [] => Except.error "IndexError: list index out of range"
  | entry :: _ => Except.ok (get_albums_entry album_by_hash store_albums entry)

/-- The while loop of find_album (albumslib.py lines 62-82).  An element of
ALBUMS whose hash attribute cannot be read is modelled as none.  The
equality probe sits inside try/except (a failed read there is caught and
logged), but the subsequent less-than comparison re-reads the hash outside
the try block, so a malformed (or out-of-range) element makes the function
raise; that is the Except.error branch. -/
def find_album_go (ALBUMS : List (Option String)) (target : String)
    (left : Nat) (right : Int) : Except String (Option Nat) :=
  if _h : (left : Int) ≤ right then
    let mid := (left + right.toNat) / 2
    match ALBUMS.get? mid with
    | some (some hsh) =>
      if hsh == target then Except.ok (some mid)
      else if hsh < target then find_album_go ALBUMS target (mid + 1) right
      else find_album_go ALBUMS target left ((mid : Int) - 1)
    | _ => Except.error "AttributeError"
  else
    Except.ok none
termination_by (right + 1 - left).toNat
decreasing_by
  · have hr : (0 : Int) ≤ right := le_trans (by positivity) _h
    have hml : left ≤ (left + right.toNat) / 2 := by
      apply (Nat.le_div_iff_mul_le (by norm_num)).mpr
      omega
    have hmr : (left + right.toNat) / 2 ≤ right.toNat := by
      have h2 : left + right.toNat ≤ right.toNat * 2 + 1 := by omega
      omega
    omega
  · have hr : (0 : Int) ≤ right := le_trans (by positivity) _h
    have hml : left ≤ (left + right.toNat) / 2 := by
      apply (Nat.le_div_iff_mul_le (by norm_num)).mpr
      omega
    have hmr : (left + right.toNat) / 2 ≤ right.toNat := by
      have h2 : left + right.toNat ≤ right.toNat * 2 + 1 := by omega
      omega
    omega

/-- find_album (albumslib.py lines 57-82): binary search over api.ALBUMS
for the identity of (albumtitle, artist), starting with left = 0 and
right = len(ALBUMS) - 1. -/
def find_album (ALBUMS : List (Option String)) (albumtitle artist : String) :
    Except String (Option Nat) :=
  find_album_go ALBUMS (create_album_hash albumtitle artist) 0
    ((ALBUMS.length : Int) - 1)

/-- Modelled from the spec: trackslib.find_track is not under src/.  Per
spec section 4.3 the grouper repeatedly locates the first track in the pool
whose album identity matches.  We model the composite of find_track
(returning an index) and the immediately following pool[index] read as
returning that first matching track. -/
def find_track (tracks : List Track) (hsh : String) : Option Track :=
  tracks.find? (fun t => t.albumhash == hsh)

/-- The while loop of GetAlbumTracks.find_tracks (albumslib.py lines
146-152): find the first matching track, append it to the result, remove it
from the pool (list.remove deletes the first equal element), repeat until
no match remains.  Returns (extracted tracks, remaining pool). -/
def find_tracks_loop (hsh : String) (pool : List Track) :
    List Track × List Track :=
  match hfind : find_track pool hsh with
  | none => ([], pool)
  | some t =>
    let r := find_tracks_loop hsh (pool.erase t)
    (t :: r.1, r.2)
termination_by pool.length
decreasing_by
  have ht : t ∈ pool := List.mem_of_find?_eq_some hfind
  have hlen := List.length_erase_of_mem ht
  have hpos : 0 < pool.length := List.length_pos.mpr (by rintro rfl; simp at ht)
  omega

/-- GetAlbumTracks.find_tracks (albumslib.py lines 139-155) for a given
target album identity: the constructor sorts api.DB_TRACKS by album
identity (self.tracks aliases api.DB_TRACKS), the loop extracts every
matching track, and the method then re-extends the pool with the extracted
tracks before returning them.  Returns (extracted tracks, final pool). -/
def find_tracks (DB_TRACKS : List Track) (hsh : String) :
    List Track × List Track :=
  let sorted := DB_TRACKS.mergeSort (fun a b => a.albumhash ≤ b.albumhash)
  let r := find_tracks_loop hsh sorted
  (r.1, r.2 ++ r.1)

/-- get_album_tracks (albumslib.py lines 158-159): construct the identity
from (album, artist) and run the extraction. -/
def get_album_tracks (DB_TRACKS : List Track) (album artist : String) :
    List Track × List Track :=
  find_tracks DB_TRACKS (create_album_hash album artist)

/-- The five response buckets of the artist-albums endpoint. -/
structure AlbumBuckets where
  albums : List Album
  singles : List Album
  eps : List Album
  appearances : List Album
  compilations : List Album
deriving DecidableEq

/-- remove_EPs_and_singles (artist.py lines 238-241). -/
def remove_EPs_and_singles (albums : List Album) : List Album :=
  let albums1 := albums.filter (fun a => !a.is_EP)
  let albums2 := albums1.filter (fun a => !a.is_single)
  albums2

/-- The classification part of get_artist_albums (artist.py lines 235-254):
singles and eps by flag over all albums; the primary-credit candidates with
EPs and singles removed; compilations filtered from the candidates and then
removed one by one with list.remove (which deletes the first equal
element); appearances are the non-primary albums with EPs and singles
removed. -/
def get_artist_albums_buckets (artisthash : String) (all_albums : List Album) :
    AlbumBuckets :=
  let singles := all_albums.filter (fun a => a.is_single)
  let eps := all_albums.filter (fun a => a.is_EP)
  let albums0 := all_albums.filter (fun a => a.albumartists_hashes.contains artisthash)
  let albums1 := remove_EPs_and_singles albums0
  let compilations := albums1.filter (fun a => a.is_compilation)
  let albums2 := compilations.foldl (fun acc c => acc.erase c) albums1
  let appearances0 :=
    all_albums.filter (fun a => !(a.albumartists_hashes.contains artisthash))
  let appearances := remove_EPs_and_singles appearances0
  { albums := albums2
    singles := singles
    eps := eps
    appearances := appearances
    compilations := compilations }

/-- The response part of get_artist_albums (artist.py lines 256-268): when
the all flag is present, the limit is replaced by the total count of
fetched albums; each bucket is then sliced to the limit. -/
def get_artist_albums_response (artisthash : String) (all_albums : List Album)
    (limit : Nat) (return_all : Bool) : AlbumBuckets :=
  let b := get_artist_albums_buckets artisthash all_albums
  let lim := if return_all then all_albums.length else limit
  { albums := b.albums.take lim
    singles := b.singles.take lim
    eps := b.eps.take lim
    appearances := b.appearances.take lim
    compilations := b.compilations.take lim }

/-- Reference partition, following the words of the specification (spec
section 4.5 and claim C2): the candidate set is the primary-credit albums
minus EPs minus singles; regular albums are the candidates without the
compilation flag; compilations are the candidates with it; appearances are
the non-primary albums minus EPs and singles, compilations retained. -/
def ref_candidate (artisthash : String) (all_albums : List Album) : List Album :=
  ((all_albums.filter (fun a => a.albumartists_hashes.contains artisthash)).filter
      (fun a => !a.is_EP)).filter (fun a => !a.is_single)

/-- Reference buckets per the specification wording (see ref_candidate). -/
def ref_buckets (artisthash : String) (all_albums : List Album) : AlbumBuckets :=
  { albums := (ref_candidate artisthash all_albums).filter (fun a => !a.is_compilation)
    singles := all_albums.filter (fun a => a.is_single)
    eps := all_albums.filter (fun a => a.is_EP)
    appearances :=
      ((all_albums.filter (fun a => !(a.albumartists_hashes.contains artisthash))).filter
          (fun a => !a.is_EP)).filter (fun a => !a.is_single)
    compilations := (ref_candidate artisthash all_albums).filter (fun a => a.is_compilation) }

/-- The track-slicing logic of get_artist (artist.py lines 194-206): when
the artist has zero albums credited as primary artist and fewer than 10
tracks, the limit is replaced by the track count; the tracks are then
sliced to the limit. -/
def get_artist_tracks_slice (limit : Nat) (tracks : List Track) (acount : Nat) :
    List Track :=
  let tcount := tracks.length
  let lim := if acount = 0 ∧ tcount < 10 then tcount else limit
  tracks.take lim

/-- Concrete album with identity abc, resolvable from the album store. -/
def albumA : Album :=
  { albumhash := "abc", albumartists_hashes := [], is_single := false,
    is_EP := false, is_compilation := false }

/-- Concrete album whose identity ab is a proper substring of abc. -/
def albumB : Album :=
  { albumhash := "ab", albumartists_hashes := [], is_single := false,
    is_EP := false, is_compilation := false }

/-- Concrete album store resolving only the identity abc (to albumA). -/
def storeA : String → Option Album :=
  fun h => if h == "abc" then some albumA else none

/-- Concrete cache entry for artist x knowing the single album identity
abc. -/
def entryX : CacheEntry :=
  { artisthash := "x", albumhashes := ["abc"], tracks := [], albums := [],
    type_checked := false, albums_fetched := false }

/-- Concrete cache entry for artist b with nothing cached. -/
def entryB : CacheEntry := CacheEntry.init "b" [] []

/-- Concrete album flagged both single and EP. -/
def albumD : Album :=
  { albumhash := "d", albumartists_hashes := [], is_single := true,
    is_EP := true, is_compilation := false }

/-- Concrete regular album with primary credit for artist x. -/
def albumR : Album :=
  { albumhash := "r", albumartists_hashes := ["x"], is_single := false,
    is_EP := false, is_compilation := false }

/-- Concrete compilation-flagged album with primary credit for artist x. -/
def albumC : Album :=
  { albumhash := "c", albumartists_hashes := ["x"], is_single := false,
    is_EP := false, is_compilation := true }

/-- Concrete track whose album identity matches create_album_hash s a. -/
def trackT : Track := { albumhash := "s-a", title := "x", duration := 1 }

/-- Concrete list of four tracks of one artist. -/
def tracks4 : List Track :=
  [{ albumhash := "h", title := "t1", duration := 1 },
   { albumhash := "h", title := "t2", duration := 1 },
   { albumhash := "h", title := "t3", duration := 1 },
   { albumhash := "h", title := "t4", duration := 1 }]

/-- Concrete argument triples for two add_entry calls for distinct artist
identities a and b. -/
def calls2 : List (String × List String × List Track) :=
  [("a", [], []), ("b", [], [])]

/-- Erasing a run of elements that all satisfy p from a list headed by an
element that does not satisfy p leaves the head in place. -/
theorem foldl_erase_cons_of_neg {α : Type} [DecidableEq α] (p : α → Bool)
    (x : α) (hx : p x = false) :
    ∀ (cs : List α), (∀ c ∈ cs, p c = true) → ∀ (l : List α),
      List.foldl (fun acc c => acc.erase c) (x :: l) cs
        = x :: List.foldl (fun acc c => acc.erase c) l cs := by
  intro cs
  induction cs with
  | nil => intro _ l; rfl
  | cons c cs ih =>
    intro hall l
    have hc : p c = true := hall c (by simp)
    have hxc : ¬ ((x == c) = true) := by
      intro hbeq
      rw [eq_of_beq hbeq, hc] at hx
      exact Bool.noConfusion hx
    simp only [List.foldl_cons]
    rw [List.erase_cons_tail hxc]
    exact ih (fun d hd => hall d (by simp [hd])) (l.erase c)

/-- Erasing, one by one, every element of a list that satisfies p (the
list.remove loop of get_artist_albums) leaves exactly the elements that do
not satisfy p, in order. -/
theorem foldl_erase_filter {α : Type} [DecidableEq α] (p : α → Bool) :
    ∀ l : List α,
      List.foldl (fun acc c => acc.erase c) l (l.filter p)
        = l.filter (fun a => !p a) := by
  intro l
  induction l with
  | nil => rfl
  | cons x xs ih =>
    by_cases hp : p x = true
    · rw [List.filter_cons_of_pos hp]
      simp only [List.foldl_cons]
      rw [List.erase_cons_head, ih, List.filter_cons_of_neg (by simp [hp])]
    · have hp2 : p x = false := by
        cases hpx : p x
        · rfl
        · exact absurd hpx hp
      rw [List.filter_cons_of_neg (by simp [hp2])]
      rw [foldl_erase_cons_of_neg p x hp2 (xs.filter p)
        (fun c hc => (List.mem_filter.mp hc).2) xs]
      rw [ih, List.filter_cons_of_pos (by simp [hp2])]

/-- The classification computed by get_artist_albums coincides bucket by
bucket with the reference partition written from the specification. -/
theorem buckets_eq_ref (artisthash : String) (all_albums : List Album) :
    get_artist_albums_buckets artisthash all_albums
      = ref_buckets artisthash all_albums := by
  unfold get_artist_albums_buckets ref_buckets ref_candidate remove_EPs_and_singles
  simp only [AlbumBuckets.mk.injEq]
  refine ⟨?_, by simp⟩
  exact foldl_erase_filter (fun a : Album => a.is_compilation)
    (((all_albums.filter (fun a => a.albumartists_hashes.contains artisthash)).filter
        (fun a => !a.is_EP)).filter (fun a => !a.is_single))

/-- When find? locates t as the first element satisfying p, the matching
elements of the list are t followed by the matching elements of the list
with t erased. -/
theorem find?_filter_pos {α : Type} [DecidableEq α] (p : α → Bool) :
    ∀ (l : List α) (t : α), l.find? p = some t →
      l.filter p = t :: (l.erase t).filter p := by
  intro l
  induction l with
  | nil => intro t h; simp at h
  | cons x xs ih =>
    intro t h
    by_cases hp : p x = true
    · rw [List.find?_cons_of_pos _ hp] at h
      injection h with h
      subst h
      rw [List.filter_cons_of_pos hp, List.erase_cons_head]
    · rw [List.find?_cons_of_neg _ hp] at h
      have hpt : p t = true := List.find?_some h
      have hxt : ¬ ((x == t) = true) := by
        intro hbeq
        rw [eq_of_beq hbeq] at hp
        exact hp hpt
      rw [List.erase_cons_tail hxt, List.filter_cons_of_neg hp,
        List.filter_cons_of_neg hp]
      exact ih t h

/-- When find? locates t as the first element satisfying p, erasing t does
not change the elements that do not satisfy p. -/
theorem find?_filter_neg {α : Type} [DecidableEq α] (p : α → Bool) :
    ∀ (l : List α) (t : α), l.find? p = some t →
      l.filter (fun a => !p a) = (l.erase t).filter (fun a => !p a) := by
  intro l
  induction l with
  | nil => intro t h; simp at h
  | cons x xs ih =>
    intro t h
    by_cases hp : p x = true
    · rw [List.find?_cons_of_pos _ hp] at h
      injection h with h
      subst h
      rw [List.erase_cons_head, List.filter_cons_of_neg (by simp [hp])]
    · rw [List.find?_cons_of_neg _ hp] at h
      have hpt : p t = true := List.find?_some h
      have hxt : ¬ ((x == t) = true) := by
        intro hbeq
        rw [eq_of_beq hbeq] at hp
        exact hp hpt
      have hp2 : p x = false := by
        cases hpx : p x
        · rfl
        · exact absurd hpx hp
      rw [List.erase_cons_tail hxt, List.filter_cons_of_pos (by simp [hp2]),
        List.filter_cons_of_pos (by simp [hp2]), ih t h]

/-- The find-and-remove loop of GetAlbumTracks.find_tracks extracts exactly
the tracks whose album identity matches, in pool order, and leaves exactly
the non-matching tracks, in pool order. -/
theorem find_tracks_loop_eq (hsh : String) (pool : List Track) :
    find_tracks_loop hsh pool
      = (pool.filter (fun t => t.albumhash == hsh),
         pool.filter (fun t => !(t.albumhash == hsh))) := by
  have main : ∀ (n : Nat) (pool : List Track), pool.length ≤ n →
      find_tracks_loop hsh pool
        = (pool.filter (fun t => t.albumhash == hsh),
           pool.filter (fun t => !(t.albumhash == hsh))) := by
    intro n
    induction n with
    | zero =>
      intro pool hp
      have : pool = [] := List.length_eq_zero.mp (Nat.le_zero.mp hp)
      subst this
      rw [find_tracks_loop]
      simp [find_track]
    | succ n ih =>
      intro pool hp
      rw [find_tracks_loop]
      cases hfind : find_track pool hsh with
      | none =>
        have hnone : ∀ t ∈ pool, ¬ ((fun t : Track => t.albumhash == hsh) t = true) :=
          List.find?_eq_none.mp hfind
        simp only []
        rw [List.filter_eq_nil_iff.mpr hnone]
        rw [List.filter_eq_self.mpr (fun a ha => by
          cases hpa : a.albumhash == hsh
          · rfl
          · exact absurd hpa (hnone a ha))]
      | some t =>
        have ht : t ∈ pool := List.mem_of_find?_eq_some hfind
        have hpos : 0 < pool.length := List.length_pos.mpr (by rintro rfl; simp at ht)
        have hlt : (pool.erase t).length ≤ n := by
          have := List.length_erase_of_mem ht
          omega
        simp only []
        rw [ih (pool.erase t) hlt]
        rw [find?_filter_pos (fun t : Track => t.albumhash == hsh) pool t hfind]
        rw [find?_filter_neg (fun t : Track => t.albumhash == hsh) pool t hfind]
  exact main pool.length pool le_rfl

/-- Appending to the maxlen-1 deque always leaves exactly the new entry,
whatever was cached before. -/
theorem add_entry_eq (cache : List CacheEntry) (a : String)
    (hs : List String) (ts : List Track) :
    add_entry cache a hs ts = [CacheEntry.init a hs ts] := by
  unfold add_entry deque_append
  simp only []
  have h : (cache ++ [CacheEntry.init a hs ts]).length - 1 = cache.length := by
    simp
  rw [h, List.drop_left]

/-- Running a non-empty sequence of add_entry calls leaves exactly one
entry: the one built from the last call's arguments. -/
theorem run_add_entries_last :
    ∀ (calls : List (String × List String × List Track)) (hne : calls ≠ [])
      (cache : List CacheEntry),
      run_add_entries cache calls
        = [CacheEntry.init (calls.getLast hne).1 (calls.getLast hne).2.1
            (calls.getLast hne).2.2] := by
  intro calls
  induction calls with
  | nil => intro hne; exact absurd rfl hne
  | cons x l ih =>
    intro hne cache
    cases l with
    | nil =>
      show run_add_entries cache [x] = _
      unfold run_add_entries
      simp only [List.foldl_cons, List.foldl_nil]
      rw [add_entry_eq]
      rfl
    | cons y l2 =>
      have hstep : run_add_entries cache (x :: y :: l2)
          = run_add_entries (add_entry cache x.1 x.2.1 x.2.2) (y :: l2) := rfl
      rw [hstep, ih (by simp) (add_entry cache x.1 x.2.1 x.2.2)]
      have hlast : (x :: y :: l2).getLast hne = (y :: l2).getLast (by simp) :=
        List.getLast_cons (by simp)
      rw [hlast]

/-- When no entry of the cache matches the requested identity, the
enumerate loop of get_albums_by_artisthash falls through to ([], -1),
whatever the running index. -/
theorem go_all_miss (hs : String) :
    ∀ (cache : List CacheEntry),
      (∀ e ∈ cache, (e.artisthash == hs) = false) →
      ∀ idx, get_albums_by_artisthash_go hs cache idx = ([], -1) := by
  intro cache
  induction cache with
  | nil => intro _ idx; rfl
  | cons e rest ih =>
    intro hmiss idx
    unfold get_albums_by_artisthash_go
    rw [if_neg (by simp [hmiss e (by simp)])]
    exact ih (fun x hx => hmiss x (by simp [hx])) (idx + 1)

/-- C1: against the claim that ArtistsCache.get_albums appends a store
album if and only if its identity is not a member of the resolved album
identities, the code tests substring containment in the dash-joined
concatenation of the resolved identities: here the store album with
identity ab is skipped even though ab is not among the resolved identities
(only abc is), because ab occurs inside the string abc. -/
theorem c1_substring_merge_skips_nonmember :
    get_albums storeA [albumB] [entryX] "x"
        = Except.ok { artisthash := "x", albumhashes := ["abc"], tracks := [],
                      albums := [albumA], type_checked := false,
                      albums_fetched := true } ∧
    ((["abc"] : List String).contains "ab") = false ∧
    strContains "abc" "ab" = true := by
  refine ⟨rfl, rfl, rfl⟩

/-- C2: the five buckets computed by get_artist_albums coincide with the
reference partition written from the specification: singles and eps by
flag over all albums, regular albums as the primary-credit candidates minus
EPs, singles and compilation-flagged albums, compilations as the
candidates with the flag, and appearances as the non-primary albums minus
EPs and singles with compilations retained. -/
theorem c2_classifier_matches_reference (artisthash : String)
    (all_albums : List Album) :
    get_artist_albums_buckets artisthash all_albums
      = ref_buckets artisthash all_albums :=
  buckets_eq_ref artisthash all_albums

/-- C4: a stage-advancing call on a cache whose only entry belongs to a
different artist identity (or on an empty cache after eviction) does not
produce a recoverable condition: the list-comprehension-and-[0] lookup in
ArtistsCache.get_tracks raises an unhandled IndexError. -/
theorem c4_get_tracks_missing_entry_errors :
    get_tracks [entryB] "a" = Except.error "IndexError: list index out of range" ∧
    get_tracks [] "a" = Except.error "IndexError: list index out of range" ∧
    get_albums storeA [] [entryB] "a"
      = Except.error "IndexError: list index out of range" := by
  refine ⟨rfl, rfl, rfl⟩

/-- C5: on a sorted album array whose probed element is malformed (its
identity cannot be read), find_album does not skip and continue: the
equality probe's failure is caught, but the less-than comparison re-reads
the identity outside the try block and the error propagates out of the
lookup. -/
theorem c5_find_album_malformed_error :
    find_album [none] "t" "a" = Except.error "AttributeError" := by
  unfold find_album create_album_hash
  rw [find_album_go]
  norm_num

/-- C6 counterexample: the claim's post-condition says that when
get_album_tracks returns, the pool no longer contains any track for the
requested album; in the code the routine itself re-extends the pool with
the extracted tracks before returning, so after extracting the single
matching track from the one-track pool the pool still contains it. -/
theorem c6_pool_retains_extracted_tracks :
    trackT ∈ (get_album_tracks [trackT] "s" "a").2 ∧
    (get_album_tracks [trackT] "s" "a").1 = [trackT] := by
  unfold get_album_tracks find_tracks
  simp only [List.mergeSort_singleton, find_tracks_loop_eq]
  refine ⟨by decide, by decide⟩

/-- C6 amended: get_album_tracks returns exactly the tracks of the sorted
pool whose album identity equals the identity of (title, artist) — a
permutation of the pool's matching tracks — and the final pool is the
non-matching tracks followed by the extracted tracks, which the routine
itself re-appends before returning. -/
theorem c6_extraction_amended (DB_TRACKS : List Track) (album artist : String) :
    (get_album_tracks DB_TRACKS album artist).1
        = (DB_TRACKS.mergeSort (fun a b => a.albumhash ≤ b.albumhash)).filter
            (fun t => t.albumhash == create_album_hash album artist) ∧
    (get_album_tracks DB_TRACKS album artist).2
        = (DB_TRACKS.mergeSort (fun a b => a.albumhash ≤ b.albumhash)).filter
            (fun t => !(t.albumhash == create_album_hash album artist))
          ++ (get_album_tracks DB_TRACKS album artist).1 ∧
    ((get_album_tracks DB_TRACKS album artist).1).Perm
        (DB_TRACKS.filter (fun t => t.albumhash == create_album_hash album artist)) := by
  unfold get_album_tracks find_tracks
  simp only [find_tracks_loop_eq]
  refine ⟨trivial, trivial, ?_⟩
  exact (List.mergeSort_perm DB_TRACKS (fun a b => a.albumhash ≤ b.albumhash)).filter _

/-- C7: when the artist has zero albums credited as primary artist and
fewer than 10 tracks, the artist summary's track slice ignores the limit
parameter and returns every track. -/
theorem c7_singles_only_artist_all_tracks (limit : Nat) (tracks : List Track)
    (acount : Nat) (h1 : acount = 0) (h2 : tracks.length < 10) :
    get_artist_tracks_slice limit tracks acount = tracks := by
  unfold get_artist_tracks_slice
  simp only []
  rw [if_pos ⟨h1, h2⟩]
  exact List.take_length tracks

/-- C7 witness: an artist with zero primary-credit albums and 4 tracks gets
all 4 tracks back at the default limit 6. -/
theorem c7_singles_only_artist_all_tracks_witness :
    get_artist_tracks_slice 6 tracks4 0 = tracks4 ∧ tracks4.length = 4 :=
  ⟨c7_singles_only_artist_all_tracks 6 tracks4 0 rfl (by decide), rfl⟩

/-- C3 counterexample: an album flagged both is_single and is_EP lands in
both the singles and the eps bucket, so the four buckets are not pairwise
disjoint as the claim states. -/
theorem c3_singles_eps_overlap :
    albumD ∈ (get_artist_albums_buckets "x" [albumD]).singles ∧
    albumD ∈ (get_artist_albums_buckets "x" [albumD]).eps := by
  refine ⟨by decide, by decide⟩

/-- C3 amended: the buckets albums and compilations are disjoint from each
other and from singles and eps; singles and eps overlap exactly on albums
flagged both is_single and is_EP; and no single or EP appears in albums,
compilations, or appearances. -/
theorem c3_buckets_disjoint_amended (h : String) (all : List Album) (a : Album) :
    (a ∈ (get_artist_albums_buckets h all).albums →
      a ∉ (get_artist_albums_buckets h all).singles ∧
      a ∉ (get_artist_albums_buckets h all).eps ∧
      a ∉ (get_artist_albums_buckets h all).compilations) ∧
    (a ∈ (get_artist_albums_buckets h all).compilations →
      a ∉ (get_artist_albums_buckets h all).singles ∧
      a ∉ (get_artist_albums_buckets h all).eps ∧
      a ∉ (get_artist_albums_buckets h all).albums) ∧
    (a ∈ (get_artist_albums_buckets h all).singles →
      a ∈ (get_artist_albums_buckets h all).eps →
      a.is_single = true ∧ a.is_EP = true) ∧
    ((a.is_single = true ∨ a.is_EP = true) →
      a ∉ (get_artist_albums_buckets h all).albums ∧
      a ∉ (get_artist_albums_buckets h all).compilations ∧
      a ∉ (get_artist_albums_buckets h all).appearances) := by
  rw [buckets_eq_ref h all]
  simp only [ref_buckets, ref_candidate, List.mem_filter]
  constructor
  · intro ha
    simp_all
  constructor
  · intro ha
    simp_all
  constructor
  · intro hs he
    exact ⟨hs.2, he.2⟩
  · intro hflag
    rcases hflag with hf | hf <;> simp_all

/-- C3 amended witness: concrete instances of each part — the double
flagged albumD is excluded from albums, compilations and appearances; the
regular albumR in the albums bucket is in none of singles, eps,
compilations; the compilation albumC is in neither singles, eps nor the
albums bucket; and albumD sits in both singles and eps only because both
its flags are set. -/
theorem c3_buckets_disjoint_amended_witness :
    (albumD.is_single = true ∧ albumD.is_EP = true) ∧
    (albumD ∉ (get_artist_albums_buckets "x" [albumD]).albums ∧
     albumD ∉ (get_artist_albums_buckets "x" [albumD]).compilations ∧
     albumD ∉ (get_artist_albums_buckets "x" [albumD]).appearances) ∧
    (albumR ∉ (get_artist_albums_buckets "x" [albumR]).singles ∧
     albumR ∉ (get_artist_albums_buckets "x" [albumR]).eps ∧
     albumR ∉ (get_artist_albums_buckets "x" [albumR]).compilations) ∧
    (albumC ∉ (get_artist_albums_buckets "x" [albumC]).singles ∧
     albumC ∉ (get_artist_albums_buckets "x" [albumC]).eps ∧
     albumC ∉ (get_artist_albums_buckets "x" [albumC]).albums) :=
  ⟨(c3_buckets_disjoint_amended "x" [albumD] albumD).2.2.1 (by decide) (by decide),
   (c3_buckets_disjoint_amended "x" [albumD] albumD).2.2.2 (Or.inl (by decide)),
   (c3_buckets_disjoint_amended "x" [albumR] albumR).1 (by decide),
   (c3_buckets_disjoint_amended "x" [albumC] albumC).2.1 (by decide)⟩

/-- C8: with the all flag set the limit becomes the total count of fetched
albums; every bucket's true size is at most that total, so the sliced
response equals the unsliced buckets — no bucket is truncated. -/
theorem c8_return_all_no_truncation (artisthash : String)
    (all_albums : List Album) (limit : Nat) :
    get_artist_albums_response artisthash all_albums limit true
      = get_artist_albums_buckets artisthash all_albums := by
  have hb := buckets_eq_ref artisthash all_albums
  have h1 : (get_artist_albums_buckets artisthash all_albums).albums.length
      ≤ all_albums.length := by
    rw [hb]
    simp only [ref_buckets, ref_candidate]
    exact le_trans (List.length_filter_le _ _)
      (le_trans (List.length_filter_le _ _)
        (le_trans (List.length_filter_le _ _) (List.length_filter_le _ _)))
  have h2 : (get_artist_albums_buckets artisthash all_albums).singles.length
      ≤ all_albums.length := by
    rw [hb]
    exact List.length_filter_le _ _
  have h3 : (get_artist_albums_buckets artisthash all_albums).eps.length
      ≤ all_albums.length := by
    rw [hb]
    exact List.length_filter_le _ _
  have h4 : (get_artist_albums_buckets artisthash all_albums).appearances.length
      ≤ all_albums.length := by
    rw [hb]
    simp only [ref_buckets]
    exact le_trans (List.length_filter_le _ _)
      (le_trans (List.length_filter_le _ _) (List.length_filter_le _ _))
  have h5 : (get_artist_albums_buckets artisthash all_albums).compilations.length
      ≤ all_albums.length := by
    rw [hb]
    simp only [ref_buckets, ref_candidate]
    exact le_trans (List.length_filter_le _ _)
      (le_trans (List.length_filter_le _ _)
        (le_trans (List.length_filter_le _ _) (List.length_filter_le _ _)))
  unfold get_artist_albums_response
  simp only [if_true]
  rw [List.take_of_length_le h1, List.take_of_length_le h2,
    List.take_of_length_le h3, List.take_of_length_le h4,
    List.take_of_length_le h5]

/-- C9: the cache holds at most one entry at every instant of a sequence of
add_entry calls, and after a non-empty sequence exactly the entry for the
most recently added artist identity remains. -/
theorem c9_cache_capacity_one (cache : List CacheEntry)
    (calls : List (String × List String × List Track))
    (hc : cache.length ≤ 1) (hne : calls ≠ []) :
    run_add_entries cache calls
        = [CacheEntry.init (calls.getLast hne).1 (calls.getLast hne).2.1
            (calls.getLast hne).2.2] ∧
    ∀ n : Nat, (run_add_entries cache (calls.take n)).length ≤ 1 := by
  refine ⟨run_add_entries_last calls hne cache, ?_⟩
  intro n
  rcases htake : calls.take n with _ | ⟨x, l⟩
  · simpa [run_add_entries] using hc
  · rw [run_add_entries_last (x :: l) (by simp) cache]
    simp

/-- C9 witness: two add_entry calls for the distinct artist identities a
and b on an initially empty cache leave exactly the entry for b, and after
the first call the cache holds at most one entry. -/
theorem c9_cache_capacity_one_witness :
    run_add_entries [] calls2 = [CacheEntry.init "b" [] []] ∧
    (run_add_entries [] (calls2.take 1)).length ≤ 1 :=
  ⟨(c9_cache_capacity_one [] calls2 (by decide) (by decide)).1.trans (by decide),
   (c9_cache_capacity_one [] calls2 (by decide) (by decide)).2 1⟩

/-- C10: when no cached entry matches the requested artist identity,
get_albums_by_artisthash returns the empty list with index -1; indexing the
deque at -1 (as get_artist_albums then does) reads the last entry whatever
artist it belongs to when the deque is non-empty, and raises an index error
when the deque is empty. -/
theorem c10_missing_entry_negative_index (cache : List CacheEntry) (hs : String)
    (hmiss : ∀ e ∈ cache, (e.artisthash == hs) = false) :
    get_albums_by_artisthash cache hs = ([], -1) ∧
    (cache = [] → py_index cache (-1) = none) ∧
    ∀ hne : cache ≠ [], py_index cache (-1) = some (cache.getLast hne) := by
  refine ⟨go_all_miss hs cache hmiss 0, ?_, ?_⟩
  · rintro rfl
    rfl
  · intro hne
    have hlen : 0 < cache.length := List.length_pos.mpr hne
    unfold py_index
    rw [if_pos (by norm_num)]
    rw [if_neg (by omega)]
    have hidx : ((cache.length : Int) + (-1)).toNat = cache.length - 1 := by
      omega
    rw [hidx, List.getLast_eq_getElem]
    rw [List.get?_eq_get (by omega)]
    simp

/-- C10 witness: a cache holding only the entry for artist b, queried for
artist a, yields the empty album list with index -1, and indexing at -1
reads the entry for b. -/
theorem c10_missing_entry_negative_index_witness :
    get_albums_by_artisthash [entryB] "a" = ([], -1) ∧
    py_index [entryB] (-1) = some entryB := by
  have h := c10_missing_entry_negative_index [entryB] "a" (by decide)
  exact ⟨h.1, (h.2.2 (by simp)).trans (by rfl)⟩
